import Mathlib

/-!
Shallow embedding of the Popper learner core (`popper.py` and `popper/tester.py`):
the outcome classifier, the outcome-to-constraint table, constraint grounding,
the redundant-literal cache of the tester, the confusion-matrix counting of the
tester, and the inner-loop control decisions of the search controller.
-/

/-- The three coverage outcomes (`class Outcome` in popper.py). -/
inductive Outcome where
  | ALL
  | SOME
  | NONE
deriving DecidableEq, Repr

/-- The four constraint kinds (`class ConKind` in popper.py). -/
inductive ConKind where
  | GENERALISATION
  | SPECIALISATION
  | REDUNDANCY
  | BANISH
deriving DecidableEq, Repr

/-- A confusion matrix, in source order: (tp, fn, tn, fp). -/
abbrev ConfusionMatrix := Nat × Nat × Nat × Nat

/-- `OUTCOME_TO_CONSTRAINTS` from popper.py: a partial map from outcome pairs
to the ordered tuple of constraint kinds, `none` on the three unmapped pairs. -/
def OUTCOME_TO_CONSTRAINTS : Outcome × Outcome → Option (List ConKind)
  | (Outcome.ALL, Outcome.NONE) => some [ConKind.BANISH]
  | (Outcome.ALL, Outcome.SOME) => some [ConKind.GENERALISATION]
  | (Outcome.SOME, Outcome.NONE) => some [ConKind.SPECIALISATION]
  | (Outcome.SOME, Outcome.SOME) => some [ConKind.SPECIALISATION, ConKind.GENERALISATION]
  | (Outcome.NONE, Outcome.NONE) => some [ConKind.SPECIALISATION, ConKind.REDUNDANCY]
  | (Outcome.NONE, Outcome.SOME) =>
      some [ConKind.SPECIALISATION, ConKind.REDUNDANCY, ConKind.GENERALISATION]
  | _ => none

/-- `decide_outcome` from popper.py: classify a confusion matrix into a
(positive outcome, negative outcome) pair. -/
def decide_outcome (conf_matrix : ConfusionMatrix) : Outcome × Outcome :=
  let (tp, fn, _tn, fp) := conf_matrix
  let positive_outcome :=
    if fn = 0 then Outcome.ALL
    else if tp = 0 ∧ fn > 0 then Outcome.NONE
    else Outcome.SOME
  let negative_outcome :=
    if fp = 0 then Outcome.NONE
    else Outcome.SOME
  (positive_outcome, negative_outcome)

/-- The remap at the head of `build_rules` in popper.py: a negative outcome of
ALL is collapsed to SOME before the table lookup. -/
def remap_negative (negative_outcome : Outcome) : Outcome :=
  if negative_outcome = Outcome.ALL then Outcome.SOME else negative_outcome

/-- C1: `decide_outcome` returns positive outcome ALL exactly when fn = 0,
NONE exactly when tp = 0 and fn > 0, SOME otherwise; and negative outcome
NONE exactly when fp = 0, SOME otherwise. -/
theorem C1_decide_outcome_characterisation (tp fn tn fp : Nat) :
    ((decide_outcome (tp, fn, tn, fp)).1 = Outcome.ALL ↔ fn = 0) ∧
    ((decide_outcome (tp, fn, tn, fp)).1 = Outcome.NONE ↔ tp = 0 ∧ fn > 0) ∧
    ((decide_outcome (tp, fn, tn, fp)).1 = Outcome.SOME ↔
      ¬ fn = 0 ∧ ¬ (tp = 0 ∧ fn > 0)) ∧
    ((decide_outcome (tp, fn, tn, fp)).2 = Outcome.NONE ↔ fp = 0) ∧
    ((decide_outcome (tp, fn, tn, fp)).2 = Outcome.SOME ↔ fp ≠ 0) := by
  unfold decide_outcome
  by_cases hfn : fn = 0 <;> by_cases htp : tp = 0 <;> by_cases hfp : fp = 0 <;>
    simp [hfn, htp, hfp, Nat.pos_iff_ne_zero]

/-- C2: the constraint table maps the six outcome pairs exactly as the spec's
table states, and the confusion matrix (tp=0, fn=3, tn=5, fp=0) classifies to
(NONE, NONE) and selects (SPECIALISATION, REDUNDANCY). -/
theorem C2_outcome_table :
    OUTCOME_TO_CONSTRAINTS (Outcome.ALL, Outcome.NONE) = some [ConKind.BANISH] ∧
    OUTCOME_TO_CONSTRAINTS (Outcome.ALL, Outcome.SOME) = some [ConKind.GENERALISATION] ∧
    OUTCOME_TO_CONSTRAINTS (Outcome.SOME, Outcome.NONE) = some [ConKind.SPECIALISATION] ∧
    OUTCOME_TO_CONSTRAINTS (Outcome.SOME, Outcome.SOME) =
      some [ConKind.SPECIALISATION, ConKind.GENERALISATION] ∧
    OUTCOME_TO_CONSTRAINTS (Outcome.NONE, Outcome.NONE) =
      some [ConKind.SPECIALISATION, ConKind.REDUNDANCY] ∧
    OUTCOME_TO_CONSTRAINTS (Outcome.NONE, Outcome.SOME) =
      some [ConKind.SPECIALISATION, ConKind.REDUNDANCY, ConKind.GENERALISATION] ∧
    decide_outcome (0, 3, 5, 0) = (Outcome.NONE, Outcome.NONE) ∧
    OUTCOME_TO_CONSTRAINTS (decide_outcome (0, 3, 5, 0)) =
      some [ConKind.SPECIALISATION, ConKind.REDUNDANCY] := by
  refine ⟨rfl, rfl, rfl, rfl, rfl, rfl, by decide, by decide⟩

/-- C3: for all nine raw outcome pairs, remapping a negative ALL to SOME and
then looking the pair up in the constraint table always yields a defined
constraint-kind set; the lookup never fails. -/
theorem C3_lookup_total_after_remap (p n : Outcome) :
    (OUTCOME_TO_CONSTRAINTS (p, remap_negative n)).isSome = true := by
  cases p <;> cases n <;> rfl

/-- `calc_score` from popper.py: the score of a confusion matrix is tp + tn. -/
def calc_score (conf_matrix : ConfusionMatrix) : Nat :=
  let (tp, _fn, tn, _fp) := conf_matrix
  tp + tn

/-- The best-program tracker state of `popper`: `best_score` (initially none)
and the `args[PROG_KEY]` slot holding the best (program, confusion matrix). -/
structure Tracker (α : Type) where
  best_score : Option Nat
  best_prog : Option (α × ConfusionMatrix)
deriving DecidableEq

/-- The best-tracker update of `popper` (lines 151-153): replace the tracked
program iff there is no best score yet or the new score is strictly greater. -/
def update_best {α : Type} (t : Tracker α) (program : α) (conf_matrix : ConfusionMatrix) :
    Tracker α :=
  let score := calc_score conf_matrix
  match t.best_score with
  | none => ⟨some score, some (program, conf_matrix)⟩
  | some b => if score > b then ⟨some score, some (program, conf_matrix)⟩ else t

/-- Folding the best-tracker update over a sequence of tested candidates. -/
def run_best {α : Type} (t : Tracker α) (candidates : List (α × ConfusionMatrix)) :
    Tracker α :=
  candidates.foldl (fun s pc => update_best s pc.1 pc.2) t

/-- What the inner loop of `popper` does with a candidate after scoring it
(lines 157-170): terminate the run on outcome (ALL, NONE), otherwise build the
constraint kinds selected by the (remapped) outcome. -/
inductive StepAction (α : Type) where
  | Found (program : α) (conf_matrix : ConfusionMatrix)
  | BuildConstraints (kinds : List ConKind)
deriving DecidableEq

/-- The control decision of the inner loop of `popper` for one candidate:
classify, return immediately on (ALL, NONE), else select constraint kinds. -/
def loop_step {α : Type} (program : α) (conf_matrix : ConfusionMatrix) : StepAction α :=
  let outcome := decide_outcome conf_matrix
  if outcome = (Outcome.ALL, Outcome.NONE) then
    StepAction.Found program conf_matrix
  else
    StepAction.BuildConstraints
      ((OUTCOME_TO_CONSTRAINTS (outcome.1, remap_negative outcome.2)).getD [])

lemma update_best_score_mono {α : Type} (t : Tracker α) (p : α) (cm : ConfusionMatrix)
    (b : Nat) (hb : t.best_score = some b) :
    ∃ b', (update_best t p cm).best_score = some b' ∧ b ≤ b' := by
  unfold update_best
  rw [hb]
  by_cases h : calc_score cm > b
  · exact ⟨calc_score cm, by simp [h], Nat.le_of_lt h⟩
  · exact ⟨b, by simp [h, hb], Nat.le_refl b⟩

lemma run_best_score_mono {α : Type} (l : List (α × ConfusionMatrix)) (t : Tracker α)
    (b : Nat) (hb : t.best_score = some b) :
    ∃ b', (run_best t l).best_score = some b' ∧ b ≤ b' := by
  induction l generalizing t b with
  | nil => exact ⟨b, hb, Nat.le_refl b⟩
  | cons pc rest ih =>
    obtain ⟨b1, hb1, hle1⟩ := update_best_score_mono t pc.1 pc.2 b hb
    obtain ⟨b2, hb2, hle2⟩ := ih (update_best t pc.1 pc.2) b1 hb1
    exact ⟨b2, hb2, Nat.le_trans hle1 hle2⟩

/-- C4: the inner loop terminates immediately (returning the candidate and its
matrix, building no constraints) iff the outcome is (ALL, NONE); and the
outcome is (ALL, NONE) iff fn = 0 and fp = 0. -/
theorem C4_terminate_iff_all_none {α : Type} (program : α) (tp fn tn fp : Nat) :
    (loop_step program (tp, fn, tn, fp) = StepAction.Found program (tp, fn, tn, fp) ↔
      decide_outcome (tp, fn, tn, fp) = (Outcome.ALL, Outcome.NONE)) ∧
    (decide_outcome (tp, fn, tn, fp) = (Outcome.ALL, Outcome.NONE) ↔ fn = 0 ∧ fp = 0) := by
  constructor
  · unfold loop_step
    by_cases h : decide_outcome (tp, fn, tn, fp) = (Outcome.ALL, Outcome.NONE) <;>
      simp [h]
  · unfold decide_outcome
    by_cases hfn : fn = 0 <;> by_cases htp : tp = 0 <;> by_cases hfp : fp = 0 <;>
      simp [hfn, htp, hfp, Nat.pos_iff_ne_zero]

/-- C5: the tracker is updated iff the score is strictly greater than the
current best (or no best exists); the recorded best score is non-decreasing
over any sequence of candidates in one run; and on equal scores the earlier
program is retained unchanged. -/
theorem C5_best_tracker {α : Type} (t : Tracker α) (p : α) (cm : ConfusionMatrix) :
    (t.best_score = none →
      update_best t p cm = ⟨some (calc_score cm), some (p, cm)⟩) ∧
    (∀ b, t.best_score = some b → calc_score cm > b →
      update_best t p cm = ⟨some (calc_score cm), some (p, cm)⟩) ∧
    (∀ b, t.best_score = some b → ¬ calc_score cm > b →
      update_best t p cm = t) ∧
    (t.best_score = some (calc_score cm) → update_best t p cm = t) ∧
    (∀ b, t.best_score = some b →
      ∀ l : List (α × ConfusionMatrix),
        ∃ b', (run_best t l).best_score = some b' ∧ b ≤ b') := by
  refine ⟨?_, ?_, ?_, ?_, ?_⟩
  · intro h; unfold update_best; rw [h]
  · intro b hb hgt; unfold update_best; rw [hb]; simp [hgt]
  · intro b hb hle; unfold update_best; rw [hb]; simp [hle]
  · intro h; unfold update_best; rw [h]; simp
  · intro b hb l; exact run_best_score_mono l t b hb

/-- Witness for C5 at a concrete tracker, program and confusion matrix. -/
theorem C5_best_tracker_witness :
    (Tracker.best_score (α := Nat) ⟨some 4, some (7, (2, 0, 2, 1))⟩ = some 4) ∧
    update_best (α := Nat) ⟨some 4, some (7, (2, 0, 2, 1))⟩ 9 (3, 0, 2, 0) =
      ⟨some 5, some (9, (3, 0, 2, 0))⟩ ∧
    update_best (α := Nat) ⟨some 4, some (7, (2, 0, 2, 1))⟩ 9 (2, 1, 2, 0) =
      ⟨some 4, some (7, (2, 0, 2, 1))⟩ ∧
    ∃ b', (run_best (α := Nat) ⟨some 4, some (7, (2, 0, 2, 1))⟩
      [(9, (3, 0, 2, 0))]).best_score = some b' ∧ 4 ≤ b' := by
  have h := C5_best_tracker (α := Nat) ⟨some 4, some (7, (2, 0, 2, 1))⟩ 9 (3, 0, 2, 0)
  refine ⟨rfl, h.2.1 4 rfl (by decide), ?_, h.2.2.2.2 4 rfl [(9, (3, 0, 2, 0))]⟩
  have h2 := C5_best_tracker (α := Nat) ⟨some 4, some (7, (2, 0, 2, 1))⟩ 9 (2, 1, 2, 0)
  exact h2.2.2.2.1 rfl

/-- C10: the negative outcome computed by `decide_outcome` is never ALL, so the
negative-ALL-to-SOME remap in `build_rules` is the identity on every outcome
the classifier produces. -/
theorem C10_negative_never_all (conf_matrix : ConfusionMatrix) :
    (decide_outcome conf_matrix).2 ≠ Outcome.ALL ∧
    remap_negative (decide_outcome conf_matrix).2 = (decide_outcome conf_matrix).2 := by
  obtain ⟨tp, fn, tn, fp⟩ := conf_matrix
  unfold decide_outcome remap_negative
  by_cases hfp : fp = 0 <;> by_cases hfn : fn = 0 <;>
    by_cases htp : tp = 0 ∧ fn > 0 <;> simp [hfp, hfn, htp]

/-- An argument of a literal: a variable awaiting a binding or a ground
constant. Modelled from the spec: popper/core.py (which defines `Literal` and
`Grounding`) is not in src/; the spec's Grounder Adapter instantiates templates
"using externally supplied variable bindings". -/
inductive Term where
  | Var (idx : Nat)
  | Const (idx : Nat)
deriving DecidableEq, Repr

/-- A literal: predicate symbol, ordered argument list, and the meta flag
marking internal bookkeeping literals (spec data model; popper/core.py is not
in src/). -/
structure Literal where
  predicate : String
  arguments : List Term
  meta : Bool
deriving DecidableEq, Repr

/-- A clause is a pair of a head literal and an ordered body, as the tuples
`(head, body)` used throughout popper.py. -/
abbrev Clause := Literal × List Literal

/-- Modelled from the spec: instantiating one literal under a binding
substitutes the binding into every variable and leaves the predicate symbol
and the meta flag untouched (`Grounding` lives in popper/core.py, not in
src/). -/
def ground_literal (assignment : Nat → Nat) (l : Literal) : Literal :=
  { l with arguments := l.arguments.map fun t =>
      match t with
      | Term.Var v => Term.Const (assignment v)
      | Term.Const k => Term.Const k }

/-- Modelled from the spec: `Grounding.ground_clause` (popper/core.py, not in
src/) instantiates the whole clause pointwise under one binding. -/
def ground_clause (clause : Clause) (assignment : Nat → Nat) : Clause :=
  (ground_literal assignment clause.1, clause.2.map (ground_literal assignment))

/-- The external Binder (`ClingoGrounder.find_bindings`): from a constraint
template and the clause/variable budgets to a sequence of bindings. -/
def Grounder := Clause → Nat → Nat → List (Nat → Nat)

/-- The body of the outer loop of `ground_rules` in popper.py, for one
constraint clause: request bindings, keep only non-meta body literals, and add
every grounded instance to the accumulated set. -/
def ground_rules_step (grounder : Grounder) (max_clauses max_vars : Nat)
    (out : Finset Clause) (clause : Clause) : Finset Clause :=
  let assignments := grounder clause max_clauses max_vars
  let body := clause.2.filter (fun literal => ! literal.meta)
  assignments.foldl
    (fun out assignment => insert (ground_clause (clause.1, body) assignment) out) out

/-- `ground_rules` from popper.py: ground every constraint clause under every
binding returned by the grounder, collecting the results in a set. -/
def ground_rules (grounder : Grounder) (max_clauses max_vars : Nat)
    (clauses : List Clause) : Finset Clause :=
  clauses.foldl (ground_rules_step grounder max_clauses max_vars) ∅

/-- The set of ground instances one clause contributes in `ground_rules`. -/
def ground_instances (grounder : Grounder) (max_clauses max_vars : Nat)
    (clause : Clause) : Finset Clause :=
  ((grounder clause max_clauses max_vars).map
    (fun assignment =>
      ground_clause (clause.1, clause.2.filter (fun literal => ! literal.meta))
        assignment)).toFinset

lemma foldl_insert_eq_union {α : Type} (g : α → Clause) (l : List α)
    (out : Finset Clause) :
    l.foldl (fun s a => insert (g a) s) out = out ∪ (l.map g).toFinset := by
  induction l generalizing out with
  | nil => simp
  | cons a rest ih =>
    simp [List.foldl_cons, ih, Finset.insert_union, Finset.union_insert]

lemma ground_rules_step_eq (grounder : Grounder) (max_clauses max_vars : Nat)
    (out : Finset Clause) (clause : Clause) :
    ground_rules_step grounder max_clauses max_vars out clause =
      out ∪ ground_instances grounder max_clauses max_vars clause := by
  unfold ground_rules_step ground_instances
  exact foldl_insert_eq_union _ _ _

lemma mem_foldl_ground (grounder : Grounder) (max_clauses max_vars : Nat) :
    ∀ (clauses : List Clause) (out : Finset Clause) (gc : Clause),
      gc ∈ clauses.foldl (ground_rules_step grounder max_clauses max_vars) out ↔
        gc ∈ out ∨ ∃ c ∈ clauses, gc ∈ ground_instances grounder max_clauses max_vars c := by
  intro clauses
  induction clauses with
  | nil => simp
  | cons c rest ih =>
    intro out gc
    simp only [List.foldl_cons, ih, ground_rules_step_eq, Finset.mem_union,
      List.mem_cons]
    constructor
    · rintro ((h | h) | ⟨c', hc', h⟩)
      · exact Or.inl h
      · exact Or.inr ⟨c, Or.inl rfl, h⟩
      · exact Or.inr ⟨c', Or.inr hc', h⟩
    · rintro (h | ⟨c', (rfl | hc'), h⟩)
      · exact Or.inl (Or.inl h)
      · exact Or.inl (Or.inr h)
      · exact Or.inr ⟨c', hc', h⟩

lemma ground_literal_meta (assignment : Nat → Nat) (l : Literal) :
    (ground_literal assignment l).meta = l.meta := rfl

/-- C6 (amended): every ground constraint produced by `ground_rules` has a
body free of meta literals: after bindings are requested (with the unfiltered
clause) the meta literals are filtered out of each clause body before
instantiation, and instantiation preserves the meta flag, so no emitted ground
constraint contains a meta literal. -/
theorem C6_no_meta_in_ground_constraints (grounder : Grounder)
    (max_clauses max_vars : Nat) (clauses : List Clause) (gc : Clause)
    (hgc : gc ∈ ground_rules grounder max_clauses max_vars clauses) :
    ∀ l ∈ gc.2, l.meta = false := by
  intro l hl
  rw [ground_rules, mem_foldl_ground] at hgc
  rcases hgc with h | ⟨c, _hc, h⟩
  · simp at h
  · rw [ground_instances, List.mem_toFinset, List.mem_map] at h
    obtain ⟨assignment, _ha, rfl⟩ := h
    rw [ground_clause] at hl
    simp only [List.mem_map] at hl
    obtain ⟨l0, hl0, rfl⟩ := hl
    rw [List.mem_filter] at hl0
    rw [ground_literal_meta]
    simpa using hl0.2

/-- C7: `ground_rules` deduplicates: grounding a clause a second time
contributes only instances already in the set, so repeating a clause in the
input leaves the resulting set unchanged (idempotence of instantiation). -/
theorem C7_ground_rules_idempotent (grounder : Grounder) (max_clauses max_vars : Nat)
    (c : Clause) (cs : List Clause) :
    ground_rules grounder max_clauses max_vars (c :: c :: cs) =
      ground_rules grounder max_clauses max_vars (c :: cs) := by
  unfold ground_rules
  simp only [List.foldl_cons]
  congr 1
  simp only [ground_rules_step_eq]
  rw [Finset.union_assoc, Finset.union_self]

/-- A sample constraint clause: head `h(V0)`, a standard body literal `p(V0)`
and a meta body literal `m(V0)`. -/
def sample_clause : Clause :=
  (⟨"h", [Term.Var 0], false⟩, [⟨"p", [Term.Var 0], false⟩, ⟨"m", [Term.Var 0], true⟩])

/-- A sample grounder returning a single binding (every variable to 1). -/
def sample_grounder : Grounder := fun _ _ _ => [fun _ => 1]

/-- Witness for C6: grounding the sample clause yields a concrete ground
constraint whose body literal is not meta. -/
theorem C6_no_meta_witness :
    ((⟨"h", [Term.Const 1], false⟩, [⟨"p", [Term.Const 1], false⟩]) : Clause) ∈
      ground_rules sample_grounder 2 3 [sample_clause] ∧
    Literal.meta ⟨"p", [Term.Const 1], false⟩ = false := by
  constructor
  · decide
  · exact C6_no_meta_in_ground_constraints sample_grounder 2 3 [sample_clause]
      (⟨"h", [Term.Const 1], false⟩, [⟨"p", [Term.Const 1], false⟩]) (by decide)
      ⟨"p", [Term.Const 1], false⟩ (by decide)

/-- `Tester.check_redundant_literal` from popper/tester.py, as a function of
the cache `already_checked_redundant_literals`: skip clauses whose signature is
already cached, cache fresh ones, and emit the fresh clauses the redundancy
oracle flags. Clause signatures (`Clause.clause_hash`, popper/core.py, not in
src/) are modelled from the spec as the structural clause itself ("checked at
most once per distinct clause signature", structural equality); the Prolog
query `redundant_literal` (popper/test.pl, not in src/) is the external
Evaluator's pure redundancy oracle, abstracted as a boolean predicate. -/
def check_redundant_literal (redundantQ : Clause → Bool) :
    Finset Clause → List Clause → List Clause × Finset Clause
  | checked, [] => ([], checked)
  | checked, clause :: rest =>
    if clause ∈ checked then
      check_redundant_literal redundantQ checked rest
    else
      let rec_result := check_redundant_literal redundantQ (insert clause checked) rest
      (if redundantQ clause then clause :: rec_result.1 else rec_result.1, rec_result.2)

lemma check_rl_checked_subset (redundantQ : Clause → Bool) :
    ∀ (program : List Clause) (checked : Finset Clause),
      checked ⊆ (check_redundant_literal redundantQ checked program).2 := by
  intro program
  induction program with
  | nil => intro checked; exact Finset.Subset.refl checked
  | cons clause rest ih =>
    intro checked
    by_cases h : clause ∈ checked
    · simpa [check_redundant_literal, h] using ih checked
    · simp only [check_redundant_literal, h, if_false]
      exact (Finset.subset_insert clause checked).trans (ih (insert clause checked))

lemma check_rl_mem_snd (redundantQ : Clause → Bool) :
    ∀ (program : List Clause) (checked : Finset Clause) (c : Clause),
      c ∈ program → c ∈ (check_redundant_literal redundantQ checked program).2 := by
  intro program
  induction program with
  | nil => intro checked c hc; simp at hc
  | cons clause rest ih =>
    intro checked c hc
    rcases List.mem_cons.mp hc with rfl | hc
    · by_cases h : c ∈ checked
      · simp only [check_redundant_literal, h, if_true]
        exact check_rl_checked_subset redundantQ rest checked h
      · simp only [check_redundant_literal, h, if_false]
        exact check_rl_checked_subset redundantQ rest (insert c checked)
          (Finset.mem_insert_self c checked)
    · by_cases h : clause ∈ checked
      · simp only [check_redundant_literal, h, if_true]
        exact ih checked c hc
      · simp only [check_redundant_literal, h, if_false]
        exact ih (insert clause checked) c hc

lemma check_rl_all_cached (redundantQ : Clause → Bool) :
    ∀ (program : List Clause) (checked : Finset Clause),
      (∀ c ∈ program, c ∈ checked) →
      (check_redundant_literal redundantQ checked program).1 = [] := by
  intro program
  induction program with
  | nil => intro checked _; rfl
  | cons clause rest ih =>
    intro checked h
    have hc : clause ∈ checked := h clause (List.mem_cons_self clause rest)
    simp only [check_redundant_literal, hc, if_true]
    exact ih checked (fun c hcr => h c (List.mem_cons_of_mem clause hcr))

/-- C8: the redundant-literal check is cached per clause signature: a clause
whose signature is in the cache yields nothing; a fresh clause is flagged iff
the oracle flags it; and re-checking a whole program against the cache produced
by its own first check yields no clause at all. -/
theorem C8_redundant_literal_cache (redundantQ : Clause → Bool)
    (checked : Finset Clause) (program : List Clause) (c : Clause) :
    (c ∈ checked → (check_redundant_literal redundantQ checked [c]).1 = []) ∧
    (c ∉ checked →
      (check_redundant_literal redundantQ checked [c]).1 =
        if redundantQ c then [c] else []) ∧
    (check_redundant_literal redundantQ
      (check_redundant_literal redundantQ checked program).2 program).1 = [] := by
  refine ⟨?_, ?_, ?_⟩
  · intro h; simp [check_redundant_literal, h]
  · intro h; simp [check_redundant_literal, h]
  · exact check_rl_all_cached redundantQ program _
      (fun c hc => check_rl_mem_snd redundantQ program checked c hc)

/-- Witness for C8: with a cached clause the check yields nothing; with an
empty cache the same clause is flagged by an always-true oracle. -/
theorem C8_redundant_literal_cache_witness :
    (sample_clause ∈ ({sample_clause} : Finset Clause) ∧
      (check_redundant_literal (fun _ => true) {sample_clause} [sample_clause]).1 = []) ∧
    (sample_clause ∉ (∅ : Finset Clause) ∧
      (check_redundant_literal (fun _ => true) ∅ [sample_clause]).1 =
        if (fun (_ : Clause) => true) sample_clause then [sample_clause] else []) := by
  constructor
  · exact ⟨by decide,
      (C8_redundant_literal_cache (fun _ => true) {sample_clause} [] sample_clause).1
        (by decide)⟩
  · exact ⟨by decide,
      (C8_redundant_literal_cache (fun _ => true) ∅ [] sample_clause).2.1 (by decide)⟩

/-- `Tester.test` from popper/tester.py: count each positive example as tp or
fn and each negative example as fp or tn, according to membership in the
covered set computed by the external Prolog success-set query (abstracted as a
predicate on example identifiers: positive integers for positive examples,
negative integers for negative ones, as assigned by `load_examples`). -/
def test (covered : Int → Bool) (pos neg : List Int) : ConfusionMatrix :=
  let pcounts := pos.foldl
    (fun acc p => if covered p then (acc.1 + 1, acc.2) else (acc.1, acc.2 + 1))
    ((0 : Nat), (0 : Nat))
  let ncounts := neg.foldl
    (fun acc n => if covered n then (acc.1, acc.2 + 1) else (acc.1 + 1, acc.2))
    ((0 : Nat), (0 : Nat))
  (pcounts.1, pcounts.2, ncounts.1, ncounts.2)

lemma foldl_count_fst (covered : Int → Bool) :
    ∀ (l : List Int) (a b : Nat),
      (l.foldl (fun acc p =>
        if covered p then (acc.1 + 1, acc.2) else (acc.1, acc.2 + 1)) (a, b)).1 +
      (l.foldl (fun acc p =>
        if covered p then (acc.1 + 1, acc.2) else (acc.1, acc.2 + 1)) (a, b)).2 =
      a + b + l.length := by
  intro l
  induction l with
  | nil => intro a b; simp
  | cons p rest ih =>
    intro a b
    by_cases h : covered p <;> simp only [List.foldl_cons, h, if_true, if_false] <;>
      rw [ih] <;> simp <;> omega

lemma foldl_count_snd (covered : Int → Bool) :
    ∀ (l : List Int) (a b : Nat),
      (l.foldl (fun acc n =>
        if covered n then (acc.1, acc.2 + 1) else (acc.1 + 1, acc.2)) (a, b)).1 +
      (l.foldl (fun acc n =>
        if covered n then (acc.1, acc.2 + 1) else (acc.1 + 1, acc.2)) (a, b)).2 =
      a + b + l.length := by
  intro l
  induction l with
  | nil => intro a b; simp
  | cons n rest ih =>
    intro a b
    by_cases h : covered n <;> simp only [List.foldl_cons, h, if_true, if_false] <;>
      rw [ih] <;> simp <;> omega

/-- C9: `test` counts every positive example exactly once (tp + fn equals the
positive-example count) and every negative example exactly once (tn + fp
equals the negative-example count). -/
theorem C9_test_counts_partition (covered : Int → Bool) (pos neg : List Int) :
    (test covered pos neg).1 + (test covered pos neg).2.1 = pos.length ∧
    (test covered pos neg).2.2.1 + (test covered pos neg).2.2.2 = neg.length := by
  unfold test
  constructor
  · simpa using foldl_count_fst covered pos 0 0
  · simpa using foldl_count_snd covered neg 0 0

/-- A grounder that returns a binding exactly when the clause handed to it for
a binding request still has a meta literal in its body: a nonempty grounding
result observes that the binding request saw a meta literal. -/
def meta_detecting_grounder : Grounder :=
  fun clause _ _ => if clause.2.any (fun l => l.meta) then [fun _ => 1] else []

/-- Counterexample to the claim that the clause used to request bindings is
meta-free: `ground_rules` hands `find_bindings` the unfiltered clause (line 37
of popper.py), filtering meta literals only afterwards (line 40). With the
sample clause, whose body holds the meta literal `m(V0)`, a grounder that
yields a binding only on seeing a meta body literal produces a nonempty result,
while the same grounder on the pre-filtered clause produces the empty set. -/
theorem C6_counterexample :
    ground_rules meta_detecting_grounder 2 3 [sample_clause] ≠ ∅ ∧
    ground_rules meta_detecting_grounder 2 3
      [(sample_clause.1, sample_clause.2.filter (fun l => ! l.meta))] = ∅ := by
  constructor
  · decide
  · decide
